import Mathlib

/-!
Verification of the home-tidal-flood-warning repository: a shallow embedding
of the tide ingestion pipeline (src/pkg/fetcher/tidal_flood.go) and of the
alert/tide risk correlator (src/cmd/api/controllers/alert.go), with theorems
settling the specification claims.

Modelling conventions:
* instants are integer minutes since the Unix epoch, in UTC;
* float64 heights are modelled as exact decimal numbers (an integer mantissa
  with a power-of-ten scale), compared by exact cross multiplication;
* strings are processed as character lists with ASCII case folding, which is
  how the Go code behaves on the ASCII inputs of this system;
* the database table is a plain list of rows; the transaction and query
  engine of the external store (gorm) is modelled by explicit state passing,
  with its documented commit/rollback semantics.
-/

namespace TidalFlood

/-- Instants: minutes since the Unix epoch, UTC. -/
abbrev Instant := Int

/-- The fixed WIB (UTC+7) offset in minutes; Go: `time.FixedZone("WIB", 7*60*60)`. -/
def wibOffsetMinutes : Int := 7 * 60

/-- A calendar date (year, month, day), the components a Go `time.Time` carries. -/
structure Date where
  year : Int
  month : Int
  day : Int
deriving DecidableEq

/-- Days from 1970-01-01 of a proleptic-Gregorian civil date (the standard
days-from-civil computation, with floor division). -/
def daysFromCivil (y m d : Int) : Int :=
  let y2 := if m ≤ 2 then y - 1 else y
  let era := Int.fdiv y2 400
  let yoe := y2 - era * 400
  let mp := Int.emod (m + 9) 12
  let doy := Int.fdiv (153 * mp + 2) 5 + d - 1
  let doe := yoe * 365 + Int.fdiv yoe 4 - Int.fdiv yoe 100 + doy
  era * 146097 + doe - 719468

/-- Minutes since the epoch of the UTC midnight of a date. -/
def Date.epochMinutes (dt : Date) : Int :=
  1440 * daysFromCivil dt.year dt.month dt.day

/-- Go `time.Date(year, month, day, h, mi, 0, 0, wibTimezone)` as an absolute
UTC instant: out-of-range hour/minute values are normalized by plain date
arithmetic, exactly as Go normalizes them. -/
def mkWIBInstant (dt : Date) (h mi : Int) : Instant :=
  dt.epochMinutes + 60 * h + mi - wibOffsetMinutes

def isLeapYear (y : Int) : Bool :=
  (Int.emod y 4 == 0 && !(Int.emod y 100 == 0)) || Int.emod y 400 == 0

def daysInMonth (y m : Int) : Int :=
  if m == 2 then (if isLeapYear y then 29 else 28)
  else if m == 4 || m == 6 || m == 9 || m == 11 then 30
  else 31

/-- An exact decimal number `num / 10 ^ pow`: the model of the float64 values
the Go code parses and compares (all of which are short decimal literals,
compared exactly here). -/
structure DecNum where
  num : Int
  pow : Nat
deriving DecidableEq

/-- Denominator `10 ^ pow` (always positive). -/
def DecNum.den (a : DecNum) : Int := (10 : Int) ^ a.pow

/-- Exact value comparison `a < b`, by cross multiplication. -/
def DecNum.blt (a b : DecNum) : Bool := decide (a.num * b.den < b.num * a.den)

/-- Exact value comparison `a ≤ b`, by cross multiplication. -/
def DecNum.ble (a b : DecNum) : Bool := decide (a.num * b.den ≤ b.num * a.den)

/-! ### Character-level string operations

The Go code manipulates strings through `strings.ToLower`, `strings.Contains`,
`strings.Split`, `strings.TrimSpace` and two fixed regular expressions.  These
are embedded as recursive functions over `List Char` so that every theorem can
be evaluated by kernel reduction. -/

/-- ASCII lower-casing (`Char.toLower` lowers exactly `A`-`Z`), the behaviour
of Go `strings.ToLower` on the ASCII data of this system. -/
def lowerChars (cs : List Char) : List Char := cs.map Char.toLower

/-- `pre` is a leading segment of `l`. -/
def leadsChars : List Char → List Char → Bool
  | [], _ => true
  | _ :: _, [] => false
  | a :: as, b :: bs => a == b && leadsChars as bs

/-- Go `strings.Contains hay sub` over character lists: some suffix of `hay`
starts with `sub`. -/
def containsChars (sub : List Char) : List Char → Bool
  | [] => leadsChars sub []
  | c :: rest => leadsChars sub (c :: rest) || containsChars sub rest

/-- Go `strings.Contains` on strings. -/
def goContains (s sub : String) : Bool := containsChars sub.data s.data

/-- Go `strings.Split` with a one-character separator. -/
def splitOnChar (sep : Char) : List Char → List (List Char)
  | [] => [[]]
  | c :: rest =>
    let r := splitOnChar sep rest
    if c == sep then [] :: r
    else
      match r with
      | [] => [[c]]
      | g :: gs => (c :: g) :: gs

/-- Whitespace trimmed by Go `strings.TrimSpace` (the ASCII part of
`unicode.IsSpace`). -/
def isGoSpace (c : Char) : Bool :=
  c == ' ' || c == '\t' || c == '\n' || c == '\r' || c == '\x0b' || c == '\x0c'

def dropLeadingSpace : List Char → List Char
  | [] => []
  | c :: rest => if isGoSpace c then dropLeadingSpace rest else c :: rest

/-- Go `strings.TrimSpace`. -/
def trimSpace (s : String) : List Char :=
  (dropLeadingSpace (dropLeadingSpace s.data.reverse).reverse)

/-! ### Regular-expression character classes (Go RE2).

`\d` is `[0-9]`, `\w` is `[0-9A-Za-z_]`, `\s` is `[\t\n\f\r ]`.  In both
regexps of the source every quantified class is followed by a disjoint
class or literal, so greedy matching is equivalent to taking maximal runs;
the embeddings below take maximal runs and try each start position from the
left, which is RE2's leftmost-match semantics for these patterns. -/

def isDigitChar (c : Char) : Bool := '0' ≤ c && c ≤ '9'

def isWordChar (c : Char) : Bool :=
  isDigitChar c || ('a' ≤ c && c ≤ 'z') || ('A' ≤ c && c ≤ 'Z') || c == '_'

def isRegexSpace (c : Char) : Bool :=
  c == ' ' || c == '\t' || c == '\n' || c == '\x0c' || c == '\r'

/-- The maximal leading run of characters satisfying `p`, and the rest. -/
def takeRun (p : Char → Bool) : List Char → List Char × List Char
  | [] => ([], [])
  | c :: rest =>
    if p c then
      let (r, t) := takeRun p rest
      (c :: r, t)
    else ([], c :: rest)

def digitVal (c : Char) : Nat := c.toNat - '0'.toNat

def digitsToNat (cs : List Char) : Nat :=
  cs.foldl (fun acc c => acc * 10 + digitVal c) 0

/-! ### parseHeight (src/pkg/fetcher/tidal_flood.go:296-316)

Go: regex `(-?[\d.]+)\s*m\s*\((-?[\d.]+)\s*ft\)` via `FindStringSubmatch`,
then `strconv.ParseFloat` on each captured group. -/

def isNumChar (c : Char) : Bool := isDigitChar c || c == '.'

/-- One capture of `-?[\d.]+` at the current position: the captured
characters and the rest of the input. -/
def matchSignedNum (cs : List Char) : Option (List Char × List Char) :=
  match cs with
  | '-' :: rest =>
    let (run, t) := takeRun isNumChar rest
    if run.isEmpty then none else some ('-' :: run, t)
  | rest =>
    let (run, t) := takeRun isNumChar rest
    if run.isEmpty then none else some (run, t)

/-- Attempt the height pattern exactly at the start of `cs`; on success the
two captured groups. -/
def heightMatchAt (cs : List Char) : Option (List Char × List Char) :=
  match matchSignedNum cs with
  | none => none
  | some (g1, r1) =>
    let (_, r2) := takeRun isRegexSpace r1
    match r2 with
    | 'm' :: r3 =>
      let (_, r4) := takeRun isRegexSpace r3
      match r4 with
      | '(' :: r5 =>
        match matchSignedNum r5 with
        | none => none
        | some (g2, r6) =>
          let (_, r7) := takeRun isRegexSpace r6
          match r7 with
          | 'f' :: 't' :: ')' :: _ => some (g1, g2)
          | _ => none
      | _ => none
    | _ => none

/-- Leftmost match of the height pattern (Go `FindStringSubmatch`). -/
def findHeightMatch : List Char → Option (List Char × List Char)
  | [] => none
  | c :: rest =>
    match heightMatchAt (c :: rest) with
    | some g => some g
    | none => findHeightMatch rest

/-- `strconv.ParseFloat` restricted to the unsigned strings the height regex
can capture (digits and dots): valid exactly when there is at least one digit
and at most one dot; the value is exact. -/
def parseDecCore (cs : List Char) : Option DecNum :=
  match splitOnChar '.' cs with
  | [ip] =>
    if !ip.isEmpty && ip.all isDigitChar then some ⟨(digitsToNat ip : Int), 0⟩ else none
  | [ip, fp] =>
    if !(ip ++ fp).isEmpty && (ip ++ fp).all isDigitChar then
      some ⟨(digitsToNat (ip ++ fp) : Int), fp.length⟩
    else none
  | _ => none

/-- `strconv.ParseFloat` on a captured group, sign included. -/
def parseGoFloat (cs : List Char) : Option DecNum :=
  match cs with
  | '-' :: rest => (parseDecCore rest).map (fun d => ⟨-d.num, d.pow⟩)
  | _ => parseDecCore cs

/-- Go `parseHeight`: returns (meters, feet) or an error. -/
def parseHeight (heightStr : String) : Except String (DecNum × DecNum) :=
  match findHeightMatch heightStr.data with
  | none => .error ("could not parse height: " ++ heightStr)
  | some (g1, g2) =>
    match parseGoFloat g1 with
    | none => .error "invalid meters value"
    | some hm =>
      match parseGoFloat g2 with
      | none => .error "invalid feet value"
      | some hf => .ok (hm, hf)

/-! ### parseTimeWIB (src/pkg/fetcher/tidal_flood.go:272-294)

Go: `strings.Split(timeStr, ":")`, `strconv.Atoi` on both parts, then
`time.Date(date.Year(), date.Month(), date.Day(), hour, minute, 0, 0, wib)`.
The variant in src/unnamed/part_001 additionally calls `.UTC()`, which changes
the representation but not the instant; both are the same function here. -/

/-- Go `strconv.Atoi`: an optional sign, then at least one ASCII digit, and
the value must fit a 64-bit int. -/
def goAtoi (cs : List Char) : Option Int :=
  let signed : Int × List Char :=
    match cs with
    | '+' :: rest => (1, rest)
    | '-' :: rest => (-1, rest)
    | rest => (1, rest)
  let sign := signed.1
  let ds := signed.2
  if !ds.isEmpty && ds.all isDigitChar then
    let v : Int := sign * (digitsToNat ds : Int)
    if -(2 ^ 63) ≤ v ∧ v ≤ 2 ^ 63 - 1 then some v else none
  else none

/-- Go `parseTimeWIB`: combine a clock-time string with the date, in WIB. -/
def parseTimeWIB (date : Date) (timeStr : String) : Except String Instant :=
  match splitOnChar ':' timeStr.data with
  | [p1, p2] =>
    match goAtoi p1 with
    | none => .error "invalid hour"
    | some hour =>
      match goAtoi p2 with
      | none => .error "invalid minute"
      | some minute => .ok (mkWIBInstant date hour minute)
  | _ => .error ("invalid time format: " ++ timeStr)

/-! ### parseTideDate (src/pkg/fetcher/tidal_flood.go:252-270)

Go: regex `(\w+)\s+(\w+)\s+(\d+),\s+(\d+)` (weekday, month, day, year), then
`time.ParseInLocation("January 2, 2006", month ++ " " ++ day ++ ", " ++ year,
wib)`, keeping only the calendar date.  The variant in src/unnamed/part_001
returns the same calendar date in two representations (UTC midnight for
storage, WIB midnight for combination); the `Date` value here carries the
shared (year, month, day). -/

/-- Attempt the date pattern exactly at the start of `cs`; on success the
month, day and year captures (the weekday capture is discarded by the Go
code). -/
def dateMatchAt (cs : List Char) : Option (List Char × List Char × List Char) :=
  let (w1, r1) := takeRun isWordChar cs
  if w1.isEmpty then none else
  let (s1, r2) := takeRun isRegexSpace r1
  if s1.isEmpty then none else
  let (w2, r3) := takeRun isWordChar r2
  if w2.isEmpty then none else
  let (s2, r4) := takeRun isRegexSpace r3
  if s2.isEmpty then none else
  let (d1, r5) := takeRun isDigitChar r4
  if d1.isEmpty then none else
  match r5 with
  | ',' :: r6 =>
    let (s3, r7) := takeRun isRegexSpace r6
    if s3.isEmpty then none else
    let (d2, _) := takeRun isDigitChar r7
    if d2.isEmpty then none else some (w2, d1, d2)
  | _ => none

/-- Leftmost match of the date pattern. -/
def findDateMatch : List Char → Option (List Char × List Char × List Char)
  | [] => none
  | c :: rest =>
    match dateMatchAt (c :: rest) with
    | some g => some g
    | none => findDateMatch rest

/-- Month-name lookup of Go `time.Parse` with layout `January`: the full month
names, compared ASCII-case-insensitively. -/
def monthFromName (cs : List Char) : Option Int :=
  let l := lowerChars cs
  if l == "january".data then some 1
  else if l == "february".data then some 2
  else if l == "march".data then some 3
  else if l == "april".data then some 4
  else if l == "may".data then some 5
  else if l == "june".data then some 6
  else if l == "july".data then some 7
  else if l == "august".data then some 8
  else if l == "september".data then some 9
  else if l == "october".data then some 10
  else if l == "november".data then some 11
  else if l == "december".data then some 12
  else none

/-- Go `parseTideDate`: extract the calendar date from the header text.
The day must have at most two digits and the year exactly four (layout
`January 2, 2006`), and Go validates the day against the month's length. -/
def parseTideDate (text : String) : Except String Date :=
  match findDateMatch text.data with
  | none => .error ("could not extract date from: " ++ text)
  | some (mTok, dTok, yTok) =>
    match monthFromName mTok with
    | none => .error "unrecognized month name"
    | some m =>
      if dTok.length ≤ 2 && yTok.length == 4 then
        let d : Int := (digitsToNat dTok : Int)
        let y : Int := (digitsToNat yTok : Int)
        if 1 ≤ d ∧ d ≤ daysInMonth y m then .ok ⟨y, m, d⟩
        else .error "day out of range"
      else .error "cannot parse date"

/-! ### The tide data model (src/pkg/models/tide_data.go) -/

inductive TideType
  | high
  | low
deriving DecidableEq

/-- The string stored in the `tide_type` column. -/
def TideType.toStr : TideType → String
  | .high => "high"
  | .low => "low"

/-- One row of the `tide_data` table (ID and bookkeeping timestamps, which no
claim touches, are omitted). -/
structure TideData where
  location : String
  date : Date
  tideType : TideType
  tideTime : Instant
  heightM : DecNum
  heightFt : DecNum
deriving DecidableEq

def TideLocation : String := "Sekupang"

/-! ### Fetch (src/pkg/fetcher/tidal_flood.go:86-187)

The network call and DOM traversal are external I/O; the document reaching the
row loop is modelled as the list of `div` texts (for the header search) and
the list of table rows, each row being its list of `td` cell texts. -/

/-- The header search: `doc.Find("div").Each` keeps the text of the last div
containing both `"Tide Times for"` and `"(WIB)"`, starting from `""`. -/
def findHeaderText (divTexts : List String) : String :=
  divTexts.foldl
    (fun acc t => if goContains t "Tide Times for" && goContains t "(WIB)" then t else acc)
    ""

/-- Classification of the first cell: case-insensitive substring match for
`"high"`, then `"low"`, else the row is skipped. -/
def classifyTideType (cs : List Char) : Option TideType :=
  if containsChars "high".data (lowerChars cs) then some .high
  else if containsChars "low".data (lowerChars cs) then some .low
  else none

/-- The body of the row loop: a row is accepted only when it has exactly three
cells whose trimmed texts pass tide-kind classification, time parsing and
height parsing; any failure skips the row (`return` inside the Go closure). -/
def processRow (date : Date) (cells : List String) : Option TideData :=
  match cells with
  | [c0, c1, c2] =>
    let tideTypeStr := trimSpace c0
    let timeStr : String := ⟨trimSpace c1⟩
    let heightStr : String := ⟨trimSpace c2⟩
    match classifyTideType tideTypeStr with
    | none => none
    | some tt =>
      match parseTimeWIB date timeStr with
      | .error _ => none
      | .ok tideTime =>
        match parseHeight heightStr with
        | .error _ => none
        | .ok (hm, hf) => some ⟨TideLocation, date, tt, tideTime, hm, hf⟩
  | _ => none

/-- Go `Fetch` after the document is retrieved: find the header, parse the
date, accept rows (the first `tr` is the table header and is skipped), and
fail when no row was accepted. -/
def Fetch (divTexts : List String) (tableRows : List (List String)) :
    Except String (List TideData × Date) :=
  let dateText := findHeaderText divTexts
  if dateText == "" then .error "could not find tide date header"
  else
    match parseTideDate dateText with
    | .error e => .error ("failed to parse tide date: " ++ e)
    | .ok date =>
      let tideData := (tableRows.drop 1).filterMap (processRow date)
      if tideData.isEmpty then .error "no tide data found in the table"
      else .ok (tideData, date)

/-! ### FetchAndStore (src/pkg/fetcher/tidal_flood.go:44-84)

The table is a list of rows; `db.Transaction` commits the callback's final
state on success and restores the prior state on error (the documented
rollback semantics of the external store).  Failures of the delete and insert
statements are injected through `TxFaults`. -/

/-- Injected storage failures: the delete statement failing, or the insert of
the row at a given batch index failing. -/
structure TxFaults where
  deleteFails : Bool
  insertFailsAt : Option Nat
deriving DecidableEq

/-- Faultless execution. -/
def noFaults : TxFaults := ⟨false, none⟩

/-- The insert loop inside the transaction: each `tx.Create` appends one row
or aborts the callback; on success the number of rows inserted. -/
def insertLoop (failAt : Option Nat) : List TideData → List TideData → Nat →
    Except String (List TideData × Nat)
  | st, [], _ => .ok (st, 0)
  | st, b :: bs, i =>
    if failAt == some i then .error "failed to insert tide data"
    else
      match insertLoop failAt (st ++ [b]) bs (i + 1) with
      | .error e => .error e
      | .ok (st2, n) => .ok (st2, n + 1)

/-- The transaction callback: delete all rows matching (location, date), then
insert every row of the batch. -/
def txBody (date : Date) (batch : List TideData) (faults : TxFaults)
    (store : List TideData) : Except String (List TideData × Nat) :=
  if faults.deleteFails then .error "failed to delete existing tide data"
  else
    let afterDelete :=
      store.filter (fun t => !(t.location == TideLocation && t.date == date))
    insertLoop faults.insertFailsAt afterDelete batch 0

/-- `db.Transaction`: run the callback on the current state; commit its state
on success, keep the prior state on error. -/
def transaction (store : List TideData)
    (body : List TideData → Except String (List TideData × Nat)) :
    List TideData × Except String Nat :=
  match body store with
  | .ok (st, n) => (st, .ok n)
  | .error e => (store, .error e)

/-- The day-replace step of `FetchAndStore` (its transaction block). -/
def replaceDayTx (store : List TideData) (date : Date) (batch : List TideData)
    (faults : TxFaults) : List TideData × Except String Nat :=
  transaction store (txBody date batch faults)

/-- Go `FetchAndStore`: fetch, tolerate an empty batch as a no-op, otherwise
replace the day's rows inside one transaction.  Returns the resulting store
and what the Go function returns (count or error). -/
def FetchAndStore (store : List TideData) (divTexts : List String)
    (tableRows : List (List String)) (faults : TxFaults) :
    List TideData × Except String Nat :=
  match Fetch divTexts tableRows with
  | .error e => (store, .error e)
  | .ok (tideData, date) =>
    if tideData.isEmpty then (store, .ok 0)
    else replaceDayTx store date tideData faults

/-! ### Stop (src/pkg/fetcher/tidal_flood.go:223-226)

`Stop` executes `close(f.stopChan)`.  Per the Go specification, closing an
already-closed channel panics; the channel is modelled by its open/closed
state and `Stop` by a function into a panic-or-value outcome. -/

inductive ChanState
  | opened
  | closed
deriving DecidableEq

inductive GoOutcome (α : Type)
  | ok (a : α)
  | panicked (msg : String)
deriving DecidableEq

/-- The scheduler state the claims touch: the stop channel. -/
structure TidalFloodFetcher where
  stopChan : ChanState
deriving DecidableEq

/-- `NewTidalFloodFetcher` creates the fetcher with a fresh (open) channel. -/
def NewTidalFloodFetcher : TidalFloodFetcher := ⟨.opened⟩

/-- Go `Stop`: `close(f.stopChan)`; closing a closed channel panics. -/
def Stop (f : TidalFloodFetcher) : GoOutcome TidalFloodFetcher :=
  match f.stopChan with
  | .opened => .ok ⟨.closed⟩
  | .closed => .panicked "close of closed channel"

/-! ### calculateNext2HourMark (src/pkg/fetcher/tidal_flood.go:228-250)

The current WIB wall-clock time is the date plus hour and minute (seconds and
below do not enter the computation and are dropped); `AddDate(0, 0, 1)` adds
one calendar day, i.e. 1440 minutes. -/

def calculateNext2HourMark (dt : Date) (hour minute : Nat) : Instant :=
  let nextHour : Nat := ((hour / 2) + 1) * 2
  let nextRun := mkWIBInstant dt ((nextHour % 24 : Nat) : Int) 0
  if nextHour ≥ 24 then nextRun + 1440 else nextRun

/-! ### calculateTidalFloodRisk (src/cmd/api/controllers/alert.go:124-206)

The alert record is consumed through its `Description`, `Effective` and
`Expires` fields.  The tide store reaches the function either as its list of
rows or as a query failure (`Except Unit`); the SQL query
`tide_type = high AND height_m > 2.6 AND tide_time BETWEEN ? AND ?
ORDER BY height_m DESC` is modelled by `queryTideData` (a stable sort; the
order among equal heights is unspecified by the store).  The external helper
`FormatTimeWithTimezone` only changes the display location of an instant, so
it is the identity on instants; `time.Now()` enters as the `now` parameter. -/

/-- The alert fields the correlator reads. -/
structure AlertDetail where
  description : String
  effective : Instant
  expires : Instant
deriving DecidableEq

/-- The verdict DTO (`TidalFloodRisk` in alert.go).  In Go, branches that do
not set `TideType`/`TideHeightM` leave them at their zero values (`""` and
`0`). -/
structure TidalFloodRisk where
  hasRisk : Bool
  riskLevel : String
  tideType : String
  tideTime : Instant
  tideHeightM : DecNum
  heavyRain : Bool
  message : String
deriving DecidableEq

/-- `tideBufferDuration = 2 * time.Hour`, in minutes. -/
def tideBufferDuration : Int := 120

/-- The height threshold `2.6` of the query. -/
def riskHeightThreshold : DecNum := ⟨26, 1⟩

/-- `strings.Contains(strings.ToLower(desc), "heavy rain")`. -/
def containsHeavyRain (desc : String) : Bool :=
  containsChars "heavy rain".data (lowerChars desc.data)

/-- The WHERE clause of the tide query. -/
def qualifies (eff endW : Instant) (t : TideData) : Bool :=
  decide (t.tideType = .high) && DecNum.blt riskHeightThreshold t.heightM &&
    decide (eff ≤ t.tideTime) && decide (t.tideTime ≤ endW)

/-- Stable descending insertion by height (a row moves ahead only of strictly
lower rows). -/
def insertByHeightDesc (t : TideData) : List TideData → List TideData
  | [] => [t]
  | u :: us =>
    if DecNum.blt u.heightM t.heightM then t :: u :: us
    else u :: insertByHeightDesc t us

/-- Stable sort by height, descending. -/
def sortByHeightDesc : List TideData → List TideData
  | [] => []
  | t :: ts => insertByHeightDesc t (sortByHeightDesc ts)

/-- The tide query: WHERE filter, then ORDER BY height_m DESC. -/
def queryTideData (rows : List TideData) (eff endW : Instant) : List TideData :=
  sortByHeightDesc (rows.filter (qualifies eff endW))

/-- Go `calculateTidalFloodRisk`. -/
def calculateTidalFloodRisk (queryResult : Except Unit (List TideData))
    (now : Instant) (alert : AlertDetail) : TidalFloodRisk :=
  let hasHeavyRain := containsHeavyRain alert.description
  if !hasHeavyRain then
    { hasRisk := false, riskLevel := "none", tideType := "", tideTime := now,
      tideHeightM := ⟨0, 0⟩, heavyRain := false,
      message := "No heavy rain expected" }
  else
    let expiresWithBuffer := alert.expires + tideBufferDuration
    match queryResult with
    | .error _ =>
      { hasRisk := false, riskLevel := "unknown", tideType := "", tideTime := now,
        tideHeightM := ⟨0, 0⟩, heavyRain := hasHeavyRain,
        message := "Unable to determine tidal flood risk" }
    | .ok rows =>
      match queryTideData rows alert.effective expiresWithBuffer with
      | [] =>
        { hasRisk := false, riskLevel := "none", tideType := "", tideTime := now,
          tideHeightM := ⟨0, 0⟩, heavyRain := hasHeavyRain,
          message := "No tidal flood risk: No high tide (>2.6m) during or near alert period" }
      | highestTide :: _ =>
        if alert.expires < highestTide.tideTime then
          { hasRisk := true, riskLevel := "moderate",
            tideType := highestTide.tideType.toStr,
            tideTime := highestTide.tideTime, tideHeightM := highestTide.heightM,
            heavyRain := hasHeavyRain,
            message := "MODERATE RISK: Heavy rain with high tide (>2.6m) shortly after - Sea level rising during alert period" }
        else
          { hasRisk := true, riskLevel := "high",
            tideType := highestTide.tideType.toStr,
            tideTime := highestTide.tideTime, tideHeightM := highestTide.heightM,
            heavyRain := hasHeavyRain,
            message := "HIGH RISK: Heavy rain expected during high tide (>2.6m) - Flash flood possible!" }

/-! ### Concrete fixtures used by the witness theorems -/

def sampleDate : Date := ⟨2025, 12, 4⟩

def alertHeavy : AlertDetail := ⟨"Warning: Heavy Rain over coastal areas", 0, 180⟩

def alertDry : AlertDetail := ⟨"light drizzle", 0, 180⟩

def tideInWindow : TideData := ⟨"Sekupang", ⟨2025, 12, 4⟩, .high, 60, ⟨28, 1⟩, ⟨92, 1⟩⟩

def tideInBuffer : TideData := ⟨"Sekupang", ⟨2025, 12, 4⟩, .high, 240, ⟨28, 1⟩, ⟨92, 1⟩⟩

def tideTwoSeven : TideData := ⟨"Sekupang", ⟨2025, 12, 4⟩, .high, 60, ⟨27, 1⟩, ⟨89, 1⟩⟩

def tideTwoNine : TideData := ⟨"Sekupang", ⟨2025, 12, 4⟩, .high, 100, ⟨29, 1⟩, ⟨95, 1⟩⟩

def sampleHeader : String := "Tide Times for Sekupang: Thursday December 4, 2025 (WIB)"

def sampleHeaderRow : List String := ["Tide", "Time", "Height"]

def sampleGoodRow : List String := ["High Tide", "03:12", "2.8 m (9.2 ft)"]

def sampleBadRow : List String := ["Mid Tide", "03:12", "2.8 m (9.2 ft)"]

/-! ## Theorems -/

/-- C2: for every alert whose description does not contain "heavy rain"
case-insensitively, the verdict is hasRisk false, level "none",
heavyRainDetected false — for every state of the tide store, including a
failing one, so the store's contents are never consulted. -/
theorem claim_C2_no_heavy_rain (queryResult : Except Unit (List TideData))
    (now : Instant) (alert : AlertDetail)
    (h : containsHeavyRain alert.description = false) :
    calculateTidalFloodRisk queryResult now alert =
      { hasRisk := false, riskLevel := "none", tideType := "", tideTime := now,
        tideHeightM := ⟨0, 0⟩, heavyRain := false,
        message := "No heavy rain expected" } := by
  simp [calculateTidalFloodRisk, h]

theorem claim_C2_witness :
    calculateTidalFloodRisk (.error ()) 5 alertDry =
      { hasRisk := false, riskLevel := "none", tideType := "", tideTime := 5,
        tideHeightM := ⟨0, 0⟩, heavyRain := false,
        message := "No heavy rain expected" } :=
  claim_C2_no_heavy_rain (.error ()) 5 alertDry (by decide)

/-- C3: with the heavy-rain signal present, a tide-store query failure yields
a verdict (no exception) with level "unknown"; a successful query never
yields "unknown", and an empty successful query yields "none". -/
theorem claim_C3_unknown_on_failure (now : Instant) (alert : AlertDetail)
    (h : containsHeavyRain alert.description = true) :
    (calculateTidalFloodRisk (.error ()) now alert).riskLevel = "unknown" ∧
    (∀ rows : List TideData,
      (calculateTidalFloodRisk (.ok rows) now alert).riskLevel ≠ "unknown") ∧
    (calculateTidalFloodRisk (.ok []) now alert).riskLevel = "none" := by
  refine ⟨by simp [calculateTidalFloodRisk, h], ?_, by simp [calculateTidalFloodRisk, h, queryTideData, sortByHeightDesc]⟩
  intro rows
  simp only [calculateTidalFloodRisk, h, Bool.not_true, Bool.false_eq_true, if_false]
  cases hq : queryTideData rows alert.effective (alert.expires + tideBufferDuration) with
  | nil => simp
  | cons t rest =>
    by_cases hlt : alert.expires < t.tideTime <;> simp [hlt]

theorem claim_C3_witness :
    (calculateTidalFloodRisk (.error ()) 0 alertHeavy).riskLevel = "unknown" ∧
    (∀ rows : List TideData,
      (calculateTidalFloodRisk (.ok rows) 0 alertHeavy).riskLevel ≠ "unknown") ∧
    (calculateTidalFloodRisk (.ok []) 0 alertHeavy).riskLevel = "none" :=
  claim_C3_unknown_on_failure 0 alertHeavy (by decide)

/-- C5 counterexample: the first Stop succeeds, and a second Stop panics
(Go: close of a closed channel), so a second call is not a documented no-op
or error return. -/
theorem claim_C5_counterexample :
    Stop NewTidalFloodFetcher = .ok ⟨.closed⟩ ∧
    Stop ⟨ChanState.closed⟩ = .panicked "close of closed channel" :=
  ⟨rfl, rfl⟩

/-- C5 amended: calling Stop after a completed Stop always panics with
"close of closed channel" — Go's defined behaviour for closing a closed
channel — rather than being a no-op or returning an error. -/
theorem claim_C5_second_stop_panics (f f' : TidalFloodFetcher)
    (h : Stop f = .ok f') :
    Stop f' = .panicked "close of closed channel" := by
  cases f with
  | mk st =>
    cases st with
    | opened =>
      have : f' = ⟨ChanState.closed⟩ := by
        simpa [Stop] using h.symm
      simp [this, Stop]
    | closed => simp [Stop] at h

theorem claim_C5_witness :
    Stop ⟨ChanState.closed⟩ = .panicked "close of closed channel" :=
  claim_C5_second_stop_panics NewTidalFloodFetcher ⟨ChanState.closed⟩ rfl

/-- C9: parseHeight on "1.1 m (3.6 ft)" is 1.1 m / 3.6 ft exactly, on
"-0.1 m (-0.3 ft)" is -0.1 m / -0.3 ft (negative heights valid), and it
fails on every string where the two-part pattern does not occur or a matched
numeral is not a valid decimal. -/
theorem claim_C9_parse_height :
    parseHeight "1.1 m (3.6 ft)" = .ok (⟨11, 1⟩, ⟨36, 1⟩) ∧
    parseHeight "-0.1 m (-0.3 ft)" = .ok (⟨-1, 1⟩, ⟨-3, 1⟩) ∧
    (∀ s : String, findHeightMatch s.data = none →
      parseHeight s = .error ("could not parse height: " ++ s)) ∧
    (∀ s : String, ∀ g1 g2 : List Char, findHeightMatch s.data = some (g1, g2) →
      parseGoFloat g1 = none ∨ parseGoFloat g2 = none →
      ∃ e, parseHeight s = .error e) := by
  refine ⟨rfl, rfl, ?_, ?_⟩
  · intro s hs
    simp [parseHeight, hs]
  · intro s g1 g2 hfind hbad
    simp only [parseHeight, hfind]
    rcases hbad with h1 | h2
    · simp [h1]
    · cases hg1 : parseGoFloat g1 with
      | none => simp
      | some d => simp [h2]

theorem claim_C9_witness :
    parseHeight "bogus" = .error ("could not parse height: " ++ "bogus") :=
  claim_C9_parse_height.2.2.1 "bogus" rfl

/-- C10: parseTimeWIB succeeds exactly when splitting on ":" gives two
Atoi-parsable parts — no range check on hour or minute — and the produced
instant is the date's midnight plus hour*60+minute minutes (WIB), so
out-of-range values are silently normalized onto adjacent days by the
calendar arithmetic of `mkWIBInstant`. -/
theorem claim_C10_no_range_validation (date : Date) (s : String) :
    ((∃ v, parseTimeWIB date s = .ok v) ↔
      ∃ p1 p2 h mi, splitOnChar ':' s.data = [p1, p2] ∧
        goAtoi p1 = some h ∧ goAtoi p2 = some mi) ∧
    (∀ p1 p2 : List Char, ∀ h mi : Int,
      splitOnChar ':' s.data = [p1, p2] → goAtoi p1 = some h → goAtoi p2 = some mi →
      parseTimeWIB date s = .ok (mkWIBInstant date h mi)) := by
  constructor
  · constructor
    · rintro ⟨v, hv⟩
      rcases hsp : splitOnChar ':' s.data with _ | ⟨p1, _ | ⟨p2, _ | ⟨p3, tl⟩⟩⟩
      · simp [parseTimeWIB, hsp] at hv
      · simp [parseTimeWIB, hsp] at hv
      · rcases ha1 : goAtoi p1 with _ | h
        · simp [parseTimeWIB, hsp, ha1] at hv
        · rcases ha2 : goAtoi p2 with _ | mi
          · simp [parseTimeWIB, hsp, ha1, ha2] at hv
          · exact ⟨p1, p2, h, mi, by simp [hsp], ha1, ha2⟩
      · simp [parseTimeWIB, hsp] at hv
    · rintro ⟨p1, p2, h, mi, hsp, ha1, ha2⟩
      exact ⟨mkWIBInstant date h mi, by simp [parseTimeWIB, hsp, ha1, ha2]⟩
  · intro p1 p2 h mi hsp ha1 ha2
    simp [parseTimeWIB, hsp, ha1, ha2]

theorem claim_C10_witness :
    parseTimeWIB ⟨2025, 12, 4⟩ "25:99" = .ok (mkWIBInstant ⟨2025, 12, 4⟩ 25 99) ∧
    mkWIBInstant ⟨2025, 12, 4⟩ 25 99 = mkWIBInstant ⟨2025, 12, 5⟩ 2 39 :=
  ⟨(claim_C10_no_range_validation ⟨2025, 12, 4⟩ "25:99").2 "25".data "99".data 25 99
      rfl rfl rfl,
    by decide⟩

/-- C8: the scheduler's next-boundary computation returns, for any current
local WIB time, the earliest even hour strictly later than the current hour,
with minutes zero, rolling to the next day when the rounded hour reaches 24
(`mkWIBInstant dt 24 0` is the next day's local midnight). -/
theorem claim_C8_next_boundary (dt : Date) (hour minute : Nat) (h24 : hour < 24) :
    ∃ nh : Nat, nh % 2 = 0 ∧ hour < nh ∧ nh ≤ 24 ∧
      (∀ e : Nat, e % 2 = 0 → hour < e → nh ≤ e) ∧
      calculateNext2HourMark dt hour minute = mkWIBInstant dt (nh : Int) 0 := by
  refine ⟨((hour / 2) + 1) * 2, by omega, by omega, by omega,
    by intro e he hlt; omega, ?_⟩
  simp only [calculateNext2HourMark]
  by_cases hc : ((hour / 2) + 1) * 2 ≥ 24
  · rw [if_pos hc]
    have h24x : ((hour / 2) + 1) * 2 = 24 := by omega
    rw [h24x]
    simp [mkWIBInstant]
    ring
  · rw [if_neg hc]
    rw [Nat.mod_eq_of_lt (by omega)]

theorem claim_C8_witness :
    calculateNext2HourMark ⟨2025, 12, 4⟩ 1 15 = mkWIBInstant ⟨2025, 12, 4⟩ 2 0 ∧
    calculateNext2HourMark ⟨2025, 12, 4⟩ 23 10 = mkWIBInstant ⟨2025, 12, 5⟩ 0 0 ∧
    (∃ nh : Nat, nh % 2 = 0 ∧ 1 < nh ∧ nh ≤ 24 ∧
      (∀ e : Nat, e % 2 = 0 → 1 < e → nh ≤ e) ∧
      calculateNext2HourMark ⟨2025, 12, 4⟩ 1 15 = mkWIBInstant ⟨2025, 12, 4⟩ (nh : Int) 0) :=
  ⟨by decide, by decide, claim_C8_next_boundary ⟨2025, 12, 4⟩ 1 15 (by decide)⟩

/-- C7: once the header is found and its date parses, a scrape accepting zero
rows fails with the empty-result error whatever the number of raw rows; a row
that fails the shape/kind/time/height checks (`processRow bad = none`) is
skipped without affecting the result; and the scrape succeeds whenever at
least one row is accepted. -/
theorem claim_C7_scrape_rows (divTexts : List String) (hr : List String)
    (rest : List (List String)) (txt : String) (date : Date)
    (hheader : findHeaderText divTexts = txt) (hnb : (txt == "") = false)
    (hdate : parseTideDate txt = .ok date) :
    (rest.filterMap (processRow date) = [] →
      Fetch divTexts (hr :: rest) = .error "no tide data found in the table") ∧
    (∀ pre post : List (List String), ∀ bad : List String,
      processRow date bad = none →
      Fetch divTexts (hr :: (pre ++ bad :: post)) =
        Fetch divTexts (hr :: (pre ++ post))) ∧
    (rest.filterMap (processRow date) ≠ [] →
      ∃ v d, Fetch divTexts (hr :: rest) = .ok (v, d) ∧ v ≠ []) := by
  refine ⟨?_, ?_, ?_⟩
  · intro hempty
    simp [Fetch, hheader, hnb, hdate, hempty]
  · intro pre post bad hbad
    simp [Fetch, hheader, hnb, hdate, List.filterMap_append, List.filterMap_cons, hbad]
  · intro hsome
    refine ⟨rest.filterMap (processRow date), date, ?_, hsome⟩
    simp [Fetch, hheader, hnb, hdate, List.isEmpty_iff, hsome]

theorem claim_C7_witness :
    (Fetch [sampleHeader] [sampleHeaderRow, sampleBadRow] =
      .error "no tide data found in the table") ∧
    (∃ v d, Fetch [sampleHeader] [sampleHeaderRow, sampleGoodRow] = .ok (v, d) ∧ v ≠ []) :=
  ⟨(claim_C7_scrape_rows [sampleHeader] sampleHeaderRow [sampleBadRow] sampleHeader
      ⟨2025, 12, 4⟩ rfl (by decide) rfl).1 (by decide),
    (claim_C7_scrape_rows [sampleHeader] sampleHeaderRow [sampleGoodRow] sampleHeader
      ⟨2025, 12, 4⟩ rfl (by decide) rfl).2.2 (by decide)⟩

/-- C6 helper: an insert loop with no failing index in range appends the
batch and counts its length. -/
theorem insertLoop_ok (failAt : Option Nat) (batch : List TideData) :
    ∀ (st : List TideData) (i : Nat),
      (∀ k, failAt = some k → i + batch.length ≤ k) →
      insertLoop failAt st batch i = .ok (st ++ batch, batch.length) := by
  induction batch with
  | nil => intro st i h; simp [insertLoop]
  | cons b bs ih =>
    intro st i h
    have hne : (failAt == some i) = false := by
      cases failAt with
      | none => rfl
      | some k =>
        have hx := h k rfl
        simp only [List.length_cons] at hx
        rw [beq_eq_false_iff_ne]
        intro hci
        injection hci with hki
        omega
    rw [insertLoop, hne]
    simp only [Bool.false_eq_true, if_false]
    rw [ih (st ++ [b]) (i + 1)
      (by intro k hk; have := h k hk; simp only [List.length_cons] at this; omega)]
    simp

/-- C6 helper: an insert loop whose failing index lies inside the batch
aborts with an error. -/
theorem insertLoop_error (failAt : Option Nat) (batch : List TideData) :
    ∀ (st : List TideData) (i k : Nat), failAt = some k → i ≤ k →
      k < i + batch.length →
      ∃ e, insertLoop failAt st batch i = .error e := by
  induction batch with
  | nil => intro st i k hk h1 h2; simp at h2; omega
  | cons b bs ih =>
    intro st i k hk h1 h2
    by_cases hik : k = i
    · refine ⟨"failed to insert tide data", ?_⟩
      rw [insertLoop, hk]
      subst hik
      simp
    · obtain ⟨e, he⟩ := ih (st ++ [b]) (i + 1) k hk (by omega)
        (by simp only [List.length_cons] at h2; omega)
      refine ⟨e, ?_⟩
      have hne : (failAt == some i) = false := by
        subst hk
        rw [beq_eq_false_iff_ne]
        intro hci
        injection hci with hki
        omega
      rw [insertLoop, hne]
      simp only [Bool.false_eq_true, if_false]
      rw [he]

/-- C6 helper: a transaction whose body errors keeps the prior store. -/
theorem transaction_of_error (store : List TideData)
    (body : List TideData → Except String (List TideData × Nat)) (e : String)
    (h : body store = .error e) : transaction store body = (store, .error e) := by
  unfold transaction
  rw [h]

/-- C6 helper: a transaction whose body succeeds commits the body's state. -/
theorem transaction_of_ok (store st : List TideData) (n : Nat)
    (body : List TideData → Except String (List TideData × Nat))
    (h : body store = .ok (st, n)) : transaction store body = (st, .ok n) := by
  unfold transaction
  rw [h]

/-- C6: the day replace is atomic.  If the delete fails or any insert of the
batch fails, the store is exactly what it was before and the error is
returned; with no failure it commits the delete-then-insert result and
returns the batch length. -/
theorem claim_C6_replace_atomic (store : List TideData) (date : Date)
    (batch : List TideData) (faults : TxFaults) (hne : batch ≠ []) :
    ((faults.deleteFails = true ∨
        ∃ k, faults.insertFailsAt = some k ∧ k < batch.length) →
      (replaceDayTx store date batch faults).1 = store ∧
      ∃ e, (replaceDayTx store date batch faults).2 = .error e) ∧
    (faults.deleteFails = false →
      (∀ k, faults.insertFailsAt = some k → batch.length ≤ k) →
      (replaceDayTx store date batch faults).2 = .ok batch.length ∧
      (replaceDayTx store date batch faults).1 =
        store.filter (fun t => !(t.location == TideLocation && t.date == date))
          ++ batch) := by
  constructor
  · rintro (hdel | ⟨k, hk, hklt⟩)
    · have hbody : txBody date batch faults store =
          .error "failed to delete existing tide data" := by
        unfold txBody
        rw [hdel]
        rfl
      rw [replaceDayTx, transaction_of_error _ _ _ hbody]
      exact ⟨rfl, _, rfl⟩
    · rcases hdf : faults.deleteFails with _ | _
      · obtain ⟨e, he⟩ := insertLoop_error faults.insertFailsAt batch
          (store.filter (fun t => !(t.location == TideLocation && t.date == date)))
          0 k hk (Nat.zero_le k) (by omega)
        have hbody : txBody date batch faults store = .error e := by
          unfold txBody
          rw [hdf]
          exact he
        rw [replaceDayTx, transaction_of_error _ _ _ hbody]
        exact ⟨rfl, e, rfl⟩
      · have hbody : txBody date batch faults store =
            .error "failed to delete existing tide data" := by
          unfold txBody
          rw [hdf]
          rfl
        rw [replaceDayTx, transaction_of_error _ _ _ hbody]
        exact ⟨rfl, _, rfl⟩
  · intro hdel hok
    have he := insertLoop_ok faults.insertFailsAt batch
      (store.filter (fun t => !(t.location == TideLocation && t.date == date)))
      0 (by intro k hk; have := hok k hk; omega)
    have hbody : txBody date batch faults store =
        .ok (store.filter (fun t => !(t.location == TideLocation && t.date == date))
          ++ batch, batch.length) := by
      unfold txBody
      rw [hdel]
      exact he
    rw [replaceDayTx, transaction_of_ok _ _ _ _ hbody]
    exact ⟨rfl, rfl⟩

theorem claim_C6_witness :
    ((replaceDayTx [tideInWindow] ⟨2025, 12, 4⟩ [tideTwoSeven, tideTwoNine]
        ⟨false, some 1⟩).1 = [tideInWindow] ∧
      ∃ e, (replaceDayTx [tideInWindow] ⟨2025, 12, 4⟩ [tideTwoSeven, tideTwoNine]
        ⟨false, some 1⟩).2 = .error e) ∧
    ((replaceDayTx [tideInWindow] ⟨2025, 12, 4⟩ [tideTwoSeven, tideTwoNine]
        noFaults).2 = .ok 2 ∧
      (replaceDayTx [tideInWindow] ⟨2025, 12, 4⟩ [tideTwoSeven, tideTwoNine]
        noFaults).1 =
        [tideInWindow].filter
          (fun t => !(t.location == TideLocation && t.date == ⟨2025, 12, 4⟩))
          ++ [tideTwoSeven, tideTwoNine]) :=
  ⟨(claim_C6_replace_atomic [tideInWindow] ⟨2025, 12, 4⟩ [tideTwoSeven, tideTwoNine]
      ⟨false, some 1⟩ (by decide)).1 (Or.inr ⟨1, rfl, by decide⟩),
    (claim_C6_replace_atomic [tideInWindow] ⟨2025, 12, 4⟩ [tideTwoSeven, tideTwoNine]
      noFaults (by decide)).2 rfl (by intro k hk; simp [noFaults] at hk)⟩

/-! ### Order lemmas for exact decimal comparison, and the ORDER BY sort -/

theorem DecNum.den_pos (a : DecNum) : (0 : Int) < a.den :=
  pow_pos (by norm_num) _

theorem DecNum.ble_refl (a : DecNum) : DecNum.ble a a = true := by
  simp [DecNum.ble]

theorem DecNum.ble_of_blt {a b : DecNum} (h : DecNum.blt a b = true) :
    DecNum.ble a b = true := by
  simp only [DecNum.blt, decide_eq_true_eq] at h
  simp only [DecNum.ble, decide_eq_true_eq]
  exact le_of_lt h

theorem DecNum.ble_of_blt_false {a b : DecNum} (h : DecNum.blt a b = false) :
    DecNum.ble b a = true := by
  simp only [DecNum.blt, decide_eq_false_iff_not, not_lt] at h
  simp only [DecNum.ble, decide_eq_true_eq]
  exact h

theorem DecNum.ble_trans {a b c : DecNum} (h1 : DecNum.ble a b = true)
    (h2 : DecNum.ble b c = true) : DecNum.ble a c = true := by
  simp only [DecNum.ble, decide_eq_true_eq] at h1 h2 ⊢
  have hb := b.den_pos
  have h1x := mul_le_mul_of_nonneg_right h1 (le_of_lt c.den_pos)
  have h2x := mul_le_mul_of_nonneg_right h2 (le_of_lt a.den_pos)
  have hx : a.num * c.den * b.den ≤ c.num * a.den * b.den := by nlinarith
  exact le_of_mul_le_mul_right hx hb

theorem mem_insertByHeightDesc {x t : TideData} {l : List TideData} :
    x ∈ insertByHeightDesc t l ↔ x = t ∨ x ∈ l := by
  induction l with
  | nil => simp [insertByHeightDesc]
  | cons u us ih =>
    by_cases hb : DecNum.blt u.heightM t.heightM = true
    · simp [insertByHeightDesc, hb]
    · simp only [insertByHeightDesc, hb, Bool.false_eq_true, if_false,
        List.mem_cons, ih]
      tauto

/-- The sort's pairwise invariant: every element is height-greater-or-equal
to all later elements. -/
def SortedDesc (l : List TideData) : Prop :=
  l.Pairwise (fun a b => DecNum.ble b.heightM a.heightM = true)

theorem sortedDesc_insert {t : TideData} {l : List TideData}
    (h : SortedDesc l) : SortedDesc (insertByHeightDesc t l) := by
  induction l with
  | nil => simp [SortedDesc, insertByHeightDesc]
  | cons u us ih =>
    rcases (List.pairwise_cons.mp h) with ⟨hu, hus⟩
    by_cases hb : DecNum.blt u.heightM t.heightM = true
    · have hut : DecNum.ble u.heightM t.heightM = true := DecNum.ble_of_blt hb
      simp only [SortedDesc, insertByHeightDesc, hb, if_true]
      refine List.pairwise_cons.mpr ⟨?_, h⟩
      intro x hx
      rcases List.mem_cons.mp hx with hxu | hxus
      · exact hxu ▸ hut
      · exact DecNum.ble_trans (hu x hxus) hut
    · have htu : DecNum.ble t.heightM u.heightM = true :=
        DecNum.ble_of_blt_false (Bool.not_eq_true _ ▸ hb)
      simp only [SortedDesc, insertByHeightDesc, hb, Bool.false_eq_true, if_false]
      refine List.pairwise_cons.mpr ⟨?_, ih hus⟩
      intro x hx
      rcases mem_insertByHeightDesc.mp hx with hxt | hxus
      · exact hxt ▸ htu
      · exact hu x hxus

theorem sortedDesc_sortByHeightDesc (l : List TideData) :
    SortedDesc (sortByHeightDesc l) := by
  induction l with
  | nil => simp [SortedDesc, sortByHeightDesc]
  | cons t ts ih => exact sortedDesc_insert ih

theorem mem_sortByHeightDesc {x : TideData} {l : List TideData} :
    x ∈ sortByHeightDesc l ↔ x ∈ l := by
  induction l with
  | nil => simp [sortByHeightDesc]
  | cons t ts ih =>
    simp only [sortByHeightDesc, mem_insertByHeightDesc, ih, List.mem_cons]

theorem sortByHeightDesc_ne_nil {l : List TideData} (h : l ≠ []) :
    sortByHeightDesc l ≠ [] := by
  cases l with
  | nil => exact absurd rfl h
  | cons t ts =>
    intro hs
    have : t ∈ sortByHeightDesc (t :: ts) := mem_sortByHeightDesc.mpr (by simp)
    rw [hs] at this
    exact absurd this (by simp)

/-- The head of the query result is a qualifying row of maximal height. -/
theorem queryTideData_head_spec (rows : List TideData) (eff endW : Instant)
    (h : rows.filter (qualifies eff endW) ≠ []) :
    ∃ t rest, queryTideData rows eff endW = t :: rest ∧
      t ∈ rows.filter (qualifies eff endW) ∧
      ∀ u ∈ rows.filter (qualifies eff endW),
        DecNum.ble u.heightM t.heightM = true := by
  cases hq : queryTideData rows eff endW with
  | nil => exact absurd hq (by simpa [queryTideData] using sortByHeightDesc_ne_nil h)
  | cons t rest =>
    refine ⟨t, rest, rfl, ?_, ?_⟩
    · have : t ∈ queryTideData rows eff endW := by rw [hq]; simp
      simpa [queryTideData, mem_sortByHeightDesc] using this
    · intro u hu
      have hus : u ∈ queryTideData rows eff endW := by
        simpa [queryTideData, mem_sortByHeightDesc] using hu
      rw [hq] at hus
      rcases List.mem_cons.mp hus with hut | hurest
      · exact hut ▸ DecNum.ble_refl _
      · have hsorted : SortedDesc (queryTideData rows eff endW) :=
          sortedDesc_sortByHeightDesc _
        rw [hq] at hsorted
        exact (List.pairwise_cons.mp hsorted).1 u hurest

/-- C1: with the heavy-rain signal and at least one qualifying observation
(kind High, height > 2.6 m, time within effective..expires+2h), the verdict
cites a maximal-height qualifying observation, has hasRisk true, and its
level is "high" when that observation's time is at or before expires and
"moderate" when strictly after (within the buffer). -/
theorem claim_C1_levels (rows : List TideData) (now : Instant)
    (alert : AlertDetail)
    (hrain : containsHeavyRain alert.description = true)
    (hq : rows.filter (qualifies alert.effective (alert.expires + tideBufferDuration)) ≠ []) :
    ∃ t, t ∈ rows.filter (qualifies alert.effective (alert.expires + tideBufferDuration)) ∧
      (∀ u ∈ rows.filter (qualifies alert.effective (alert.expires + tideBufferDuration)),
        DecNum.ble u.heightM t.heightM = true) ∧
      (calculateTidalFloodRisk (.ok rows) now alert).hasRisk = true ∧
      (calculateTidalFloodRisk (.ok rows) now alert).tideTime = t.tideTime ∧
      (calculateTidalFloodRisk (.ok rows) now alert).riskLevel =
        (if alert.expires < t.tideTime then "moderate" else "high") := by
  obtain ⟨t, rest, hsort, hmem, hmax⟩ :=
    queryTideData_head_spec rows alert.effective (alert.expires + tideBufferDuration) hq
  refine ⟨t, hmem, hmax, ?_⟩
  simp only [calculateTidalFloodRisk, hrain, Bool.not_true, Bool.false_eq_true,
    if_false, hsort]
  by_cases hlt : alert.expires < t.tideTime <;> simp [hlt]

theorem claim_C1_witness :
    ∃ t, t ∈ [tideInBuffer].filter
        (qualifies alertHeavy.effective (alertHeavy.expires + tideBufferDuration)) ∧
      (∀ u ∈ [tideInBuffer].filter
          (qualifies alertHeavy.effective (alertHeavy.expires + tideBufferDuration)),
        DecNum.ble u.heightM t.heightM = true) ∧
      (calculateTidalFloodRisk (.ok [tideInBuffer]) 0 alertHeavy).hasRisk = true ∧
      (calculateTidalFloodRisk (.ok [tideInBuffer]) 0 alertHeavy).tideTime = t.tideTime ∧
      (calculateTidalFloodRisk (.ok [tideInBuffer]) 0 alertHeavy).riskLevel =
        (if alertHeavy.expires < t.tideTime then "moderate" else "high") :=
  claim_C1_levels [tideInBuffer] 0 alertHeavy (by decide) (by decide)

/-- C4: with the heavy-rain signal and two or more qualifying observations,
the verdict's peak-tide fields cite a qualifying observation of maximal
height. -/
theorem claim_C4_peak_max (rows : List TideData) (now : Instant)
    (alert : AlertDetail)
    (hrain : containsHeavyRain alert.description = true)
    (hq2 : 2 ≤ (rows.filter
      (qualifies alert.effective (alert.expires + tideBufferDuration))).length) :
    ∃ t, t ∈ rows.filter (qualifies alert.effective (alert.expires + tideBufferDuration)) ∧
      (∀ u ∈ rows.filter (qualifies alert.effective (alert.expires + tideBufferDuration)),
        DecNum.ble u.heightM t.heightM = true) ∧
      (calculateTidalFloodRisk (.ok rows) now alert).tideType = t.tideType.toStr ∧
      (calculateTidalFloodRisk (.ok rows) now alert).tideTime = t.tideTime ∧
      (calculateTidalFloodRisk (.ok rows) now alert).tideHeightM = t.heightM := by
  have hq : rows.filter (qualifies alert.effective (alert.expires + tideBufferDuration)) ≠ [] := by
    intro hnil
    rw [hnil] at hq2
    simp at hq2
  obtain ⟨t, rest, hsort, hmem, hmax⟩ :=
    queryTideData_head_spec rows alert.effective (alert.expires + tideBufferDuration) hq
  refine ⟨t, hmem, hmax, ?_⟩
  simp only [calculateTidalFloodRisk, hrain, Bool.not_true, Bool.false_eq_true,
    if_false, hsort]
  by_cases hlt : alert.expires < t.tideTime <;> simp [hlt]

theorem claim_C4_witness :
    ∃ t, t ∈ [tideTwoSeven, tideTwoNine].filter
        (qualifies alertHeavy.effective (alertHeavy.expires + tideBufferDuration)) ∧
      (∀ u ∈ [tideTwoSeven, tideTwoNine].filter
          (qualifies alertHeavy.effective (alertHeavy.expires + tideBufferDuration)),
        DecNum.ble u.heightM t.heightM = true) ∧
      (calculateTidalFloodRisk (.ok [tideTwoSeven, tideTwoNine]) 0 alertHeavy).tideType
        = t.tideType.toStr ∧
      (calculateTidalFloodRisk (.ok [tideTwoSeven, tideTwoNine]) 0 alertHeavy).tideTime
        = t.tideTime ∧
      (calculateTidalFloodRisk (.ok [tideTwoSeven, tideTwoNine]) 0 alertHeavy).tideHeightM
        = t.heightM :=
  claim_C4_peak_max [tideTwoSeven, tideTwoNine] 0 alertHeavy (by decide) (by decide)

end TidalFlood
